import Mathlib

/-
Verification of the Auction & Bidding engine behaviour of the
LMA-CrystalTrade repository.

The embedded code comes from the frontend sources:
- src/components/AuctionRoom.tsx : the placeBid handler (bid validation,
  bid payload construction, timeout race, state updates) and the
  leaderboard render condition;
- src/services/api.ts : the API calls issued by the client.

The server-side auction engine (backend/services/auction_service.py,
referenced by IMPLEMENTATION_SUMMARY.md and LOAN_MARKETS_FEATURES.md) is
not contained in the available sources; where a claim is decided by that
engine, a definition modelled from the specification text is used and is
marked as such in its doc comment.

Conventions of the embedding:
- JavaScript numbers that appear as candidate bid amounts are modelled by
  `JSNum`: NaN (the parseFloat result on non-numeric text), the two
  infinities, and finite values as rationals.  Auction configuration
  fields and leaderboard amounts delivered by the backend are modelled as
  plain rationals.
- Timestamps are rationals (epoch milliseconds); Date.now() is a natural
  number of epoch milliseconds.
- Floating point rounding is not modelled; all arithmetic the claims
  exercise is exact on the values involved.
-/

/-- A JavaScript number as it arises from parseFloat on the bid amount
field: NaN for empty or non-numeric text, infinities, or a finite value
(modelled as a rational). -/
inductive JSNum where
  | nan
  | posInf
  | negInf
  | num (q : ℚ)
deriving DecidableEq

/-- JavaScript isNaN. -/
def JSNum.isNaN : JSNum → Bool
  | .nan => true
  | _ => false

/-- The JavaScript comparison `x <= 0` (false on NaN). -/
def JSNum.leZero : JSNum → Bool
  | .nan => false
  | .posInf => false
  | .negInf => true
  | .num q => decide (q ≤ 0)

/-- The JavaScript comparison `x < q` against a finite threshold
(false on NaN). -/
def JSNum.ltq : JSNum → ℚ → Bool
  | .nan, _ => false
  | .posInf, _ => false
  | .negInf, _ => true
  | .num a, q => decide (a < q)

/-- The JavaScript comparison `x >= q` against a finite threshold
(false on NaN). -/
def JSNum.geq : JSNum → ℚ → Bool
  | .nan, _ => false
  | .posInf, _ => true
  | .negInf, _ => false
  | .num a, q => decide (q ≤ a)

/-- Auction type, field auction_type of the Auction interface in
AuctionRoom.tsx. -/
inductive AuctionType where
  | english
  | sealed_bid
deriving DecidableEq

/-- Auction status, field status of the Auction interface in
AuctionRoom.tsx. -/
inductive AuctionStatus where
  | pending
  | active
  | closed
deriving DecidableEq

/-- The Auction record of AuctionRoom.tsx (interface Auction).  The ISO
time strings are modelled as epoch-millisecond rationals, which is the
form the component itself reduces them to via new Date(..).getTime(). -/
structure Auction where
  id : String
  analysis_id : String
  loan_name : String
  auction_type : AuctionType
  lot_size : ℚ
  min_bid : ℚ
  bid_increment : ℚ
  reserve_price : ℚ
  start_time : ℚ
  end_time : ℚ
  status : AuctionStatus
  created_by : String
deriving DecidableEq

/-- One entry of the leaderboard array held in component state (shape of
the entries delivered by api.getAuctionLeaderboard and consumed at
leaderboard[0].bid_amount and in the leaderboard render). -/
structure LeaderboardEntry where
  rank : Nat
  bidder_name : String
  bid_amount : ℚ
  timestamp : String
deriving DecidableEq

/-- A rejection reason of bid validation.  The first three are produced
by the client-side checks in placeBid; the last two by the status and
expiry checks of the engine. -/
inductive RejectReason where
  | invalidAmount
  | belowMinimum
  | belowIncrement
  | auctionNotActive
  | auctionExpired
deriving DecidableEq

/-- Outcome of bid validation. -/
inductive ValidationResult where
  | ok
  | rejected (r : RejectReason)
deriving DecidableEq

/-- The client-side bid validation of placeBid in AuctionRoom.tsx
(lines 184 to 204), applied to the parseFloat result of the entered
amount:
1. `isNaN(bidAmount) || bidAmount <= 0` rejects with the invalid-amount
   message;
2. `bidAmount < selectedAuction.min_bid` rejects with the below-minimum
   message;
3. if the leaderboard is non-empty, `bidAmount <
   leaderboard[0].bid_amount + selectedAuction.bid_increment` rejects
   with the below-increment message.
The code performs check 3 whenever the leaderboard state is non-empty;
it does not inspect auction_type, status or end_time. -/
def clientValidate (auction : Auction) (leaderboard : List LeaderboardEntry)
    (bidAmount : JSNum) : ValidationResult :=
  if bidAmount.isNaN || bidAmount.leZero then .rejected .invalidAmount
  else if bidAmount.ltq auction.min_bid then .rejected .belowMinimum
  else
    match leaderboard with
    | [] => .ok
    | top :: _ =>
      if bidAmount.ltq (top.bid_amount + auction.bid_increment) then
        .rejected .belowIncrement
      else .ok

/-- The authenticated user of AuthContext (interface User).  AuctionRoom
never reads it; it is threaded through the bid step only so that
independence from the user can be stated. -/
structure User where
  id : String
  email : String
  username : String
  full_name : Option String
  is_admin : Bool
deriving DecidableEq

/-- The bid form state of AuctionRoom.tsx (bidForm), with the entered
amount already passed through parseFloat (empty text parses to NaN). -/
structure BidFormState where
  bidder_name : String
  bid_amount : JSNum
deriving DecidableEq

/-- The component state placeBid reads and writes: the selected auction,
the leaderboard array, the bid form, and the loading flag. -/
structure ClientState where
  selectedAuction : Auction
  leaderboard : List LeaderboardEntry
  bidForm : BidFormState
  loading : Bool
deriving DecidableEq

/-- The bid payload constructed in placeBid (bidData).  These are all of
its fields; in particular it carries no idempotency or deduplication
key. -/
structure BidData where
  bidder_id : String
  bidder_name : String
  bid_amount : JSNum
deriving DecidableEq

/-- Settlement of the raced api.placeBid call, as observed by the
placeBid handler: the response arrived (success, carrying the refreshed
auction and leaderboard that the subsequent loadAuctionDetails and
fetchAuctions reads deliver), the request failed with an error detail,
or no settlement arrived within the 15 second race window. -/
inductive ApiOutcome where
  | success (auction : Auction) (leaderboard : List LeaderboardEntry)
  | errorResp (detail : String)
  | noResponse
deriving DecidableEq

/-- A mutating API call issued by the client (api.ts issues the bid as
POST /api/v1/auctions/id/bids).  The refresh reads (getAuction,
getAuctionLeaderboard, getAuctionsForAnalysis) are not mutations and are
not tracked here. -/
inductive ApiCall where
  | placeBidCall (auctionId : String) (data : BidData)
deriving DecidableEq

/-- A toast surfaced to the user. -/
inductive Toast where
  | success (msg : String)
  | error (msg : String)
deriving DecidableEq

/-- The reversed decimal digit list of a natural number, least
significant digit first; models the digit sequence JavaScript
number-to-string conversion produces for a natural number. -/
def natDigitsRev (n : Nat) : List Char :=
  if h : n < 10 then [Nat.digitChar n]
  else Nat.digitChar (n % 10) :: natDigitsRev (n / 10)
decreasing_by omega

/-- JavaScript number-to-string conversion restricted to natural numbers
(the form Date.now() takes): the decimal digit string. -/
def jsNatToString (n : Nat) : String :=
  String.mk (natDigitsRev n).reverse

/-- The bidder id constructed in placeBid:
bidder_id = the string demo_bidder_ followed by Date.now(). -/
def mkBidderId (nowMs : Nat) : String :=
  "demo_bidder_" ++ jsNatToString nowMs

/-- The bid payload constructed in placeBid: a fresh bidder id from the
clock, the form bidder name with the same falsy-default the code applies
(empty string falls back to Demo Institution), and the parsed amount. -/
def mkBidData (form : BidFormState) (nowMs : Nat) (bidAmount : JSNum) : BidData :=
  { bidder_id := mkBidderId nowMs
    bidder_name := if form.bidder_name = "" then "Demo Institution" else form.bidder_name
    bid_amount := bidAmount }

/-- The toast text of each client-side validation rejection.  The code
interpolates formatted dollar amounts into the latter two messages; that
numeric formatting is elided here, the text stands for the one toast the
branch emits. -/
def rejectToastText : RejectReason → String
  | .invalidAmount => "Please enter a valid bid amount"
  | .belowMinimum => "Bid must be at least the minimum bid"
  | .belowIncrement => "Bid must be at least the current highest plus the increment"
  | .auctionNotActive => "Auction is not active"
  | .auctionExpired => "Auction has expired"

/-- One full run of the placeBid handler of AuctionRoom.tsx
(lines 180 to 260), as a function of the component state, the clock, the
authenticated user (never read by the handler) and the settlement of the
raced API call.  Returns the final component state, the list of mutating
API calls issued, and the toasts surfaced.
- A validation rejection returns before setLoading and before any API
  call: state unchanged, no call issued, one error toast.
- Otherwise exactly one api.placeBid call is issued, raced against the
  15 second timeout; on success the bid amount field is cleared and the
  auction and leaderboard are refreshed; on an error response or on
  timeout the state is left (with loading reset) and one error toast is
  surfaced; the call is never re-issued. -/
def placeBidStep (s : ClientState) (nowMs : Nat) (user : Option User)
    (api : ApiOutcome) : ClientState × List ApiCall × List Toast :=
  match clientValidate s.selectedAuction s.leaderboard s.bidForm.bid_amount with
  | .rejected r => (s, [], [Toast.error (rejectToastText r)])
  | .ok =>
    let data := mkBidData s.bidForm nowMs s.bidForm.bid_amount
    let call := ApiCall.placeBidCall s.selectedAuction.id data
    match api with
    | .success a lb =>
      ({ s with selectedAuction := a, leaderboard := lb,
                bidForm := { s.bidForm with bid_amount := JSNum.nan },
                loading := false },
       [call], [Toast.success "Bid placed successfully!"])
    | .errorResp detail =>
      ({ s with loading := false }, [call], [Toast.error detail])
    | .noResponse =>
      ({ s with loading := false }, [call],
       [Toast.error "Request timeout - please try again"])

/-- The render condition of the leaderboard section in AuctionRoom.tsx:
the enclosing block renders when status is active or pending
(line 570), and inside it the leaderboard panel renders only when
auction_type is english (line 572). -/
def showsLeaderboard (a : Auction) : Bool :=
  decide ((a.status = AuctionStatus.active ∨ a.status = AuctionStatus.pending)
    ∧ a.auction_type = AuctionType.english)

/-- Modelled from the spec: the bid validator of the server-side auction
engine (backend/services/auction_service.py, not contained in the
available sources), section 4.1 of the specification:
validate(auction, candidateBid, currentHighestBid), checked in order:
status active, now at most end_time, amount positive and finite, amount
at least min_bid, and for English auctions with a current highest bid,
amount at least currentHighest + bid_increment. -/
def validateSpec (a : Auction) (nowMs : ℚ) (amount : JSNum)
    (currentHighest : Option ℚ) : ValidationResult :=
  if a.status ≠ AuctionStatus.active then .rejected .auctionNotActive
  else if a.end_time < nowMs then .rejected .auctionExpired
  else
    match amount with
    | .num q =>
      if q ≤ 0 then .rejected .invalidAmount
      else if q < a.min_bid then .rejected .belowMinimum
      else
        match a.auction_type, currentHighest with
        | .english, some h =>
          if q < h + a.bid_increment then .rejected .belowIncrement else .ok
        | _, _ => .ok
    | _ => .rejected .invalidAmount

/-- Modelled from the spec: the server-side placeBid entry point of the
auction engine (backend/services/auction_service.py, not contained in
the available sources).  Per sections 4.3, 8 and 9 of the specification
the lazy expiry guard isExpired(auction, now) is invoked first in every
mutating path, before the validator, so that placeBid after
now > end_time returns AuctionExpired regardless of the stored status
field. -/
def placeBidSpec (a : Auction) (nowMs : ℚ) (amount : JSNum)
    (currentHighest : Option ℚ) : ValidationResult :=
  if a.end_time < nowMs then .rejected .auctionExpired
  else validateSpec a nowMs amount currentHighest

/-- Violation of check 1 of the specified validator: status not
active. -/
def vStatus (a : Auction) : Bool :=
  decide (a.status ≠ AuctionStatus.active)

/-- Violation of check 2 of the specified validator: now past
end_time. -/
def vExpired (a : Auction) (nowMs : ℚ) : Bool :=
  decide (a.end_time < nowMs)

/-- Violation of check 3 of the specified validator: the amount is not a
positive finite number. -/
def vAmount : JSNum → Bool
  | .num q => decide (q ≤ 0)
  | _ => true

/-- Violation of check 4 of the specified validator: a finite amount
below the minimum bid. -/
def vMin (a : Auction) : JSNum → Bool
  | .num q => decide (q < a.min_bid)
  | _ => false

/-- Violation of check 5 of the specified validator: English auction
with a current highest bid, finite amount below highest plus
increment. -/
def vIncr (a : Auction) (currentHighest : Option ℚ) : JSNum → Bool
  | .num q =>
    match a.auction_type, currentHighest with
    | .english, some h => decide (q < h + a.bid_increment)
    | _, _ => false
  | _ => false

/-- Concrete English auction of scenario 1 of the specification:
min_bid 100, bid_increment 10, active, ends at 10000. -/
def demoEnglish : Auction :=
  { id := "a1", analysis_id := "an1", loan_name := "Loan Alpha"
    auction_type := .english, lot_size := 1000000
    min_bid := 100, bid_increment := 10, reserve_price := 500
    start_time := 0, end_time := 10000
    status := .active, created_by := "demo_user" }

/-- Leaderboard with a current highest bid of 100. -/
def demoTop100 : LeaderboardEntry :=
  { rank := 1, bidder_name := "Bidder A", bid_amount := 100, timestamp := "t1" }

/-- Concrete sealed-bid auction of scenario 2 of the specification:
min_bid 50, active. -/
def demoSealed : Auction :=
  { id := "a2", analysis_id := "an1", loan_name := "Loan Beta"
    auction_type := .sealed_bid, lot_size := 1000000
    min_bid := 50, bid_increment := 10, reserve_price := 200
    start_time := 0, end_time := 10000
    status := .active, created_by := "demo_user" }

/-- A leaderboard entry with amount 150 (a stale view a sealed-bid
auction can inherit from a previously selected English auction, since a
rejected leaderboard fetch leaves the previous array in state). -/
def demoTop150 : LeaderboardEntry :=
  { rank := 1, bidder_name := "Bidder B", bid_amount := 150, timestamp := "t2" }

/-- A different leaderboard entry with the same top amount 150. -/
def demoTop150b : LeaderboardEntry :=
  { rank := 1, bidder_name := "Bidder C", bid_amount := 150, timestamp := "t3" }

/-- A pending auction whose end_time 1000 lies in the past of the clock
value 2000 used with it. -/
def demoExpiredPending : Auction :=
  { id := "a3", analysis_id := "an1", loan_name := "Loan Gamma"
    auction_type := .english, lot_size := 1000000
    min_bid := 100, bid_increment := 10, reserve_price := 500
    start_time := 0, end_time := 1000
    status := .pending, created_by := "demo_user" }

/-- A pending auction whose end_time has not passed. -/
def demoPendingOpen : Auction :=
  { id := "a4", analysis_id := "an1", loan_name := "Loan Delta"
    auction_type := .english, lot_size := 1000000
    min_bid := 100, bid_increment := 10, reserve_price := 500
    start_time := 0, end_time := 10000
    status := .pending, created_by := "demo_user" }

/-- Component state with a non-numeric entered amount (parseFloat gives
NaN). -/
def demoBadState : ClientState :=
  { selectedAuction := demoEnglish, leaderboard := [demoTop100]
    bidForm := { bidder_name := "Demo Institution", bid_amount := JSNum.nan }
    loading := false }

/-- Component state with a valid entered amount of 110 against a current
highest of 100. -/
def demoOkState : ClientState :=
  { selectedAuction := demoEnglish, leaderboard := [demoTop100]
    bidForm := { bidder_name := "Acme Credit", bid_amount := JSNum.num 110 }
    loading := false }

/-- Decimal digit characters of distinct digits are distinct. -/
theorem digitChar_inj_lt :
    ∀ m, m < 10 → ∀ n, n < 10 → Nat.digitChar m = Nat.digitChar n → m = n := by
  decide

/-- The digit list of a natural number is never empty. -/
theorem natDigitsRev_ne_nil (n : Nat) : natDigitsRev n ≠ [] := by
  unfold natDigitsRev
  split <;> simp

/-- Unfolding equation of the digit list. -/
theorem natDigitsRev_eq (n : Nat) :
    natDigitsRev n = if n < 10 then [Nat.digitChar n]
      else Nat.digitChar (n % 10) :: natDigitsRev (n / 10) := by
  rw [natDigitsRev]
  by_cases h : n < 10 <;> simp [h]

/-- Distinct natural numbers have distinct digit lists. -/
theorem natDigitsRev_inj : ∀ m n : Nat, natDigitsRev m = natDigitsRev n → m = n := by
  intro m
  induction m using Nat.strong_induction_on with
  | _ m ih =>
    intro n h
    rw [natDigitsRev_eq m, natDigitsRev_eq n] at h
    by_cases hm : m < 10 <;> by_cases hn : n < 10 <;> simp [hm, hn] at h
    · exact digitChar_inj_lt m hm n hn h
    · exact absurd h.2 (natDigitsRev_ne_nil _)
    · exact absurd h.2 (natDigitsRev_ne_nil _)
    · obtain ⟨h1, h2⟩ := h
      have e1 : m % 10 = n % 10 :=
        digitChar_inj_lt _ (Nat.mod_lt _ (by norm_num)) _ (Nat.mod_lt _ (by norm_num)) h1
      have e2 : m / 10 = n / 10 := ih (m / 10) (by omega) (n / 10) h2
      omega

/-- JavaScript decimal stringification of naturals is injective. -/
theorem jsNatToString_inj : ∀ m n : Nat, jsNatToString m = jsNatToString n → m = n := by
  intro m n h
  have h2 : (natDigitsRev m).reverse = (natDigitsRev n).reverse := congrArg String.data h
  exact natDigitsRev_inj m n (List.reverse_injective h2)

/-- Distinct clock readings give distinct generated bidder ids. -/
theorem mkBidderId_inj : ∀ m n : Nat, mkBidderId m = mkBidderId n → m = n := by
  intro m n h
  have h2 := congrArg String.data h
  rw [mkBidderId, mkBidderId, String.data_append, String.data_append] at h2
  have h3 := List.append_cancel_left h2
  exact jsNatToString_inj m n (String.ext h3)

/-- For a non-NaN JavaScript number, failing the strict-below comparison
is the at-least comparison. -/
theorem JSNum.ltq_eq_false_iff_geq (x : JSNum) (q : ℚ) (h : x.isNaN = false) :
    x.ltq q = false ↔ x.geq q = true := by
  cases x <;> simp_all [JSNum.isNaN, JSNum.ltq, JSNum.geq, not_lt]

/-- C1: for an English auction with a current highest bid, the client
bid validation of placeBid, on an amount that passes the valid-number
and minimum-bid checks, accepts exactly when the amount is at least the
current highest plus bid_increment (so the boundary amount
currentHighest + bid_increment is accepted), and otherwise rejects with
the below-increment reason. -/
theorem english_increment_accepts_iff (a : Auction) (top : LeaderboardEntry)
    (rest : List LeaderboardEntry) (x : JSNum)
    (hEnglish : a.auction_type = AuctionType.english)
    (hnan : x.isNaN = false) (hpos : x.leZero = false)
    (hmin : x.ltq a.min_bid = false) :
    (clientValidate a (top :: rest) x = .ok
      ↔ x.geq (top.bid_amount + a.bid_increment) = true)
    ∧ (x.geq (top.bid_amount + a.bid_increment) = false →
        clientValidate a (top :: rest) x = .rejected .belowIncrement) := by
  have key := JSNum.ltq_eq_false_iff_geq x (top.bid_amount + a.bid_increment) hnan
  cases hlt : x.ltq (top.bid_amount + a.bid_increment) <;>
    simp_all [clientValidate, hnan, hpos, hmin]

/-- Witness for C1, scenario 1 of the specification: min_bid 100,
increment 10, current highest 100; a bid of 110 is accepted and a bid of
105 is rejected as below the increment. -/
theorem english_increment_accepts_iff_witness :
    clientValidate demoEnglish [demoTop100] (JSNum.num 110) = .ok
    ∧ clientValidate demoEnglish [demoTop100] (JSNum.num 105)
        = .rejected .belowIncrement := by
  constructor
  · exact (english_increment_accepts_iff demoEnglish demoTop100 [] (JSNum.num 110)
      rfl rfl (by decide) (by decide)).1.mpr
      (by norm_num [JSNum.geq, demoTop100, demoEnglish])
  · exact (english_increment_accepts_iff demoEnglish demoTop100 [] (JSNum.num 105)
      rfl rfl (by decide) (by decide)).2
      (by norm_num [JSNum.geq, demoTop100, demoEnglish])

/-- C2: for every auction whose end_time lies in the past of the clock,
the engine placeBid rejects with the expired reason, regardless of the
stored status field (engine modelled from the spec). -/
theorem placeBid_expired_always (a : Auction) (now : ℚ) (x : JSNum)
    (hb : Option ℚ) (h : a.end_time < now) :
    placeBidSpec a now x hb = .rejected .auctionExpired := by
  simp [placeBidSpec, h]

/-- Witness for C2: a stored-pending auction past its end_time is
rejected as expired. -/
theorem placeBid_expired_always_witness :
    demoExpiredPending.end_time < 2000
    ∧ placeBidSpec demoExpiredPending 2000 (JSNum.num 150) none
        = .rejected .auctionExpired :=
  ⟨by decide, placeBid_expired_always _ _ _ _ (by decide)⟩

/-- C3 counterexample: for a sealed-bid auction the client validation is
not independent of the other bids: with an empty leaderboard view a bid
of 120 passes, while with a stale top entry of 150 in the view the same
bid is rejected against the increment threshold. -/
theorem sealed_validation_depends_on_other_bids :
    demoSealed.auction_type = AuctionType.sealed_bid
    ∧ clientValidate demoSealed [] (JSNum.num 120) = .ok
    ∧ clientValidate demoSealed [demoTop150] (JSNum.num 120)
        = .rejected .belowIncrement := by
  refine ⟨rfl, by decide, ?_⟩
  norm_num [clientValidate, JSNum.isNaN, JSNum.leZero, JSNum.ltq, demoSealed, demoTop150]

/-- C3 (amended): the client validation consults the other bids only
through the amount of the top leaderboard entry, for sealed-bid auctions
just as for English ones; in particular two runs whose leaderboard views
agree on the top amount (for instance both empty, as when the sealed-bid
leaderboard is never delivered) give the same outcome. -/
theorem clientValidate_top_amount_only (a : Auction) (x : JSNum)
    (lb lb' : List LeaderboardEntry)
    (h : lb.head?.map LeaderboardEntry.bid_amount
        = lb'.head?.map LeaderboardEntry.bid_amount) :
    clientValidate a lb x = clientValidate a lb' x := by
  unfold clientValidate
  rcases lb with _ | ⟨t, r⟩ <;> rcases lb' with _ | ⟨t', r'⟩ <;> simp_all

/-- Witness for the amended C3: two different leaderboard views with the
same top amount validate a sealed-bid 120 the same way. -/
theorem clientValidate_top_amount_only_witness :
    clientValidate demoSealed [demoTop150] (JSNum.num 120)
      = clientValidate demoSealed [demoTop150b, demoTop100] (JSNum.num 120) :=
  clientValidate_top_amount_only demoSealed (JSNum.num 120) _ _ (by decide)

/-- C4 counterexample: an auction stored as pending whose end_time has
passed is rejected by the engine placeBid with the expired reason, not
with the not-active reason (engine modelled from the spec, whose lazy
expiry guard runs before the status check). -/
theorem pending_expired_rejected_as_expired :
    demoExpiredPending.status = AuctionStatus.pending
    ∧ placeBidSpec demoExpiredPending 2000 (JSNum.num 150) none
        = .rejected .auctionExpired
    ∧ placeBidSpec demoExpiredPending 2000 (JSNum.num 150) none
        ≠ .rejected .auctionNotActive := by
  refine ⟨rfl, ?_, ?_⟩ <;> decide

/-- C4 (amended): for every auction whose status is not active and whose
end_time has not passed, the engine placeBid rejects with the not-active
reason; and a bid passes only while the auction is active (engine
modelled from the spec). -/
theorem placeBid_not_active (a : Auction) (now : ℚ) (x : JSNum)
    (hb : Option ℚ) :
    (a.status ≠ AuctionStatus.active → ¬ a.end_time < now →
      placeBidSpec a now x hb = .rejected .auctionNotActive)
    ∧ (placeBidSpec a now x hb = .ok → a.status = AuctionStatus.active) := by
  constructor
  · intro hs ht
    simp [placeBidSpec, validateSpec, hs, ht]
  · intro h
    by_contra hs
    rw [placeBidSpec] at h
    split at h
    · simp at h
    · simp [validateSpec, hs] at h

/-- Witness for the amended C4: a pending auction whose end_time has not
passed is rejected as not active. -/
theorem placeBid_not_active_witness :
    placeBidSpec demoPendingOpen 500 (JSNum.num 150) none
      = .rejected .auctionNotActive :=
  (placeBid_not_active demoPendingOpen 500 (JSNum.num 150) none).1
    (by decide) (by decide)

/-- C5 counterexample: an infinite amount is not rejected by the client
validation as an invalid amount; it passes every check (the code tests
only isNaN and the sign, not finiteness). -/
theorem posInf_not_invalidAmount :
    clientValidate demoEnglish [] JSNum.posInf = .ok
    ∧ clientValidate demoEnglish [] JSNum.posInf
        ≠ .rejected .invalidAmount := by
  decide

/-- C5 (amended): the client validation rejects with the invalid-amount
reason exactly when the parsed amount is NaN (non-numeric input) or not
positive; positive infinity is not caught by this check. -/
theorem invalidAmount_iff (a : Auction) (lb : List LeaderboardEntry)
    (x : JSNum) :
    clientValidate a lb x = .rejected .invalidAmount
      ↔ (x.isNaN = true ∨ x.leZero = true) := by
  cases x with
  | nan => simp [clientValidate, JSNum.isNaN, JSNum.leZero]
  | negInf => simp [clientValidate, JSNum.isNaN, JSNum.leZero]
  | posInf =>
    cases lb <;>
      simp [clientValidate, JSNum.isNaN, JSNum.leZero, JSNum.ltq]
  | num q =>
    by_cases hq : q ≤ 0
    · simp [clientValidate, JSNum.isNaN, JSNum.leZero, hq]
    · cases lb with
      | nil =>
        by_cases hm : q < a.min_bid <;>
          simp [clientValidate, JSNum.isNaN, JSNum.leZero, JSNum.ltq, hq, hm]
      | cons t r =>
        by_cases hm : q < a.min_bid <;>
          by_cases hi : q < t.bid_amount + a.bid_increment <;>
            simp [clientValidate, JSNum.isNaN, JSNum.leZero, JSNum.ltq, hq, hm, hi]

/-- C6: the specified validator applies its checks in the fixed order
status, expiry, positive-and-finite amount, minimum bid, increment: the
earliest violated check determines the rejection reason irrespective of
later checks, and a bid passes exactly when no check is violated
(validator modelled from the spec). -/
theorem validateSpec_first_violation (a : Auction) (now : ℚ) (x : JSNum)
    (hb : Option ℚ) :
    (vStatus a = true → validateSpec a now x hb = .rejected .auctionNotActive)
    ∧ (vStatus a = false → vExpired a now = true →
        validateSpec a now x hb = .rejected .auctionExpired)
    ∧ (vStatus a = false → vExpired a now = false → vAmount x = true →
        validateSpec a now x hb = .rejected .invalidAmount)
    ∧ (vStatus a = false → vExpired a now = false → vAmount x = false →
        vMin a x = true → validateSpec a now x hb = .rejected .belowMinimum)
    ∧ (vStatus a = false → vExpired a now = false → vAmount x = false →
        vMin a x = false → vIncr a hb x = true →
        validateSpec a now x hb = .rejected .belowIncrement)
    ∧ (vStatus a = false → vExpired a now = false → vAmount x = false →
        vMin a x = false → vIncr a hb x = false →
        validateSpec a now x hb = .ok) := by
  refine ⟨?_, ?_, ?_, ?_, ?_, ?_⟩
  · intro h1
    rw [vStatus, decide_eq_true_eq] at h1
    simp [validateSpec, h1]
  · intro h1 h2
    rw [vStatus, decide_eq_false_iff_not, not_not] at h1
    rw [vExpired, decide_eq_true_eq] at h2
    simp [validateSpec, h1, h2]
  · intro h1 h2 h3
    rw [vStatus, decide_eq_false_iff_not, not_not] at h1
    rw [vExpired, decide_eq_false_iff_not] at h2
    cases x with
    | num q =>
      rw [vAmount, decide_eq_true_eq] at h3
      simp [validateSpec, h1, h2, h3]
    | nan => simp [validateSpec, h1, h2]
    | posInf => simp [validateSpec, h1, h2]
    | negInf => simp [validateSpec, h1, h2]
  · intro h1 h2 h3 h4
    rw [vStatus, decide_eq_false_iff_not, not_not] at h1
    rw [vExpired, decide_eq_false_iff_not] at h2
    cases x with
    | num q =>
      rw [vAmount, decide_eq_false_iff_not] at h3
      rw [vMin, decide_eq_true_eq] at h4
      simp [validateSpec, h1, h2, h3, h4]
    | nan => simp [vAmount] at h3
    | posInf => simp [vAmount] at h3
    | negInf => simp [vAmount] at h3
  · intro h1 h2 h3 h4 h5
    rw [vStatus, decide_eq_false_iff_not, not_not] at h1
    rw [vExpired, decide_eq_false_iff_not] at h2
    cases x with
    | num q =>
      rw [vAmount, decide_eq_false_iff_not] at h3
      rw [vMin, decide_eq_false_iff_not] at h4
      cases hty : a.auction_type with
      | english =>
        rcases hb with _ | hbv
        · simp [vIncr, hty] at h5
        · simp only [vIncr, hty, decide_eq_true_eq] at h5
          simp [validateSpec, h1, h2, h3, h4, h5, hty]
      | sealed_bid => simp [vIncr, hty] at h5
    | nan => simp [vAmount] at h3
    | posInf => simp [vAmount] at h3
    | negInf => simp [vAmount] at h3
  · intro h1 h2 h3 h4 h5
    rw [vStatus, decide_eq_false_iff_not, not_not] at h1
    rw [vExpired, decide_eq_false_iff_not] at h2
    cases x with
    | num q =>
      rw [vAmount, decide_eq_false_iff_not] at h3
      rw [vMin, decide_eq_false_iff_not] at h4
      cases hty : a.auction_type with
      | english =>
        rcases hb with _ | hbv
        · simp [validateSpec, h1, h2, h3, h4, hty]
        · simp only [vIncr, hty, decide_eq_false_iff_not] at h5
          simp [validateSpec, h1, h2, h3, h4, h5, hty]
      | sealed_bid => simp [validateSpec, h1, h2, h3, h4, hty]
    | nan => simp [vAmount] at h3
    | posInf => simp [vAmount] at h3
    | negInf => simp [vAmount] at h3

/-- Witness for C6, the two orderings named by the claim: an amount that
is both non-positive and below the minimum is rejected as invalid, and a
positive amount below both the minimum and the increment threshold is
rejected as below minimum. -/
theorem validateSpec_first_violation_witness :
    validateSpec demoEnglish 500 (JSNum.num (-5)) (some 100)
      = .rejected .invalidAmount
    ∧ validateSpec demoEnglish 500 (JSNum.num 50) (some 100)
      = .rejected .belowMinimum := by
  constructor
  · exact (validateSpec_first_violation demoEnglish 500 (JSNum.num (-5))
      (some 100)).2.2.1 (by decide) (by decide) (by decide)
  · exact (validateSpec_first_violation demoEnglish 500 (JSNum.num 50)
      (some 100)).2.2.2.1 (by decide) (by decide) (by decide) (by decide)

/-- C7: a client-side validation rejection leaves the component state
(auction, leaderboard, form values, loading flag) exactly as it was and
issues no API mutation. -/
theorem placeBid_rejection_no_mutation (s : ClientState) (nowMs : Nat)
    (u : Option User) (api : ApiOutcome) (r : RejectReason)
    (h : clientValidate s.selectedAuction s.leaderboard s.bidForm.bid_amount
          = .rejected r) :
    (placeBidStep s nowMs u api).1 = s
    ∧ (placeBidStep s nowMs u api).2.1 = [] := by
  simp [placeBidStep, h]

/-- Witness for C7: a non-numeric entered amount leaves the state
untouched and issues no call. -/
theorem placeBid_rejection_no_mutation_witness :
    (placeBidStep demoBadState 1700000000000 none ApiOutcome.noResponse).1
      = demoBadState
    ∧ (placeBidStep demoBadState 1700000000000 none ApiOutcome.noResponse).2.1
      = [] :=
  placeBid_rejection_no_mutation demoBadState 1700000000000 none
    ApiOutcome.noResponse RejectReason.invalidAmount (by decide)

/-- C8: the leaderboard section is rendered only for English auctions;
for a sealed-bid auction it is never rendered. -/
theorem leaderboard_view_english_only (a : Auction) :
    (showsLeaderboard a = true → a.auction_type = AuctionType.english)
    ∧ (a.auction_type = AuctionType.sealed_bid → showsLeaderboard a = false) := by
  constructor
  · intro h
    simp [showsLeaderboard] at h
    exact h.2
  · intro h
    simp [showsLeaderboard, h]

/-- Witness for C8: the sealed-bid demo auction never shows the
leaderboard view. -/
theorem leaderboard_view_english_only_witness :
    showsLeaderboard demoSealed = false :=
  (leaderboard_view_english_only demoSealed).2 rfl

/-- C9: one run of placeBid issues at most one bid API call; when
validation passes it issues exactly that one call whatever the outcome
of the race (so the call is never re-issued), the 15 second timeout
surfaces exactly one timeout error toast, and an error response
surfaces exactly one error toast.  The handler is a total function of
the race settlement, so no run blocks indefinitely. -/
theorem placeBid_single_call_no_retry (s : ClientState) (nowMs : Nat)
    (u : Option User) (api : ApiOutcome) :
    (placeBidStep s nowMs u api).2.1.length ≤ 1
    ∧ (clientValidate s.selectedAuction s.leaderboard s.bidForm.bid_amount
          = .ok →
        (placeBidStep s nowMs u api).2.1.length = 1
        ∧ (api = ApiOutcome.noResponse →
            (placeBidStep s nowMs u api).2.2
              = [Toast.error "Request timeout - please try again"])
        ∧ (∀ d, api = ApiOutcome.errorResp d →
            (placeBidStep s nowMs u api).2.2 = [Toast.error d])) := by
  cases hv : clientValidate s.selectedAuction s.leaderboard s.bidForm.bid_amount <;>
    cases api <;> simp [placeBidStep, hv]

/-- Witness for C9: a valid bid whose API call does not settle within
the race window issues exactly one call and surfaces exactly the timeout
error. -/
theorem placeBid_single_call_no_retry_witness :
    (placeBidStep demoOkState 1700000000000 none ApiOutcome.noResponse).2.1.length
      = 1
    ∧ (placeBidStep demoOkState 1700000000000 none ApiOutcome.noResponse).2.2
      = [Toast.error "Request timeout - please try again"] := by
  have h := (placeBid_single_call_no_retry demoOkState 1700000000000 none
      ApiOutcome.noResponse).2
    (by norm_num [clientValidate, JSNum.isNaN, JSNum.leZero, JSNum.ltq,
      demoOkState, demoEnglish, demoTop100])
  exact ⟨h.1, h.2.1 rfl⟩

/-- C10: when validation passes, the single issued call carries a
payload whose bidder_id is the string demo_bidder_ followed by the
decimal epoch-millisecond clock reading; the whole step is independent
of the authenticated user; and distinct clock readings always give
distinct bidder ids, so a retry at a later clock carries a different
id. -/
theorem bidder_id_fresh (s : ClientState) (nowMs : Nat) (u : Option User)
    (api : ApiOutcome)
    (h : clientValidate s.selectedAuction s.leaderboard s.bidForm.bid_amount
          = .ok) :
    (∃ d : BidData,
      (placeBidStep s nowMs u api).2.1
        = [ApiCall.placeBidCall s.selectedAuction.id d]
      ∧ d.bidder_id = "demo_bidder_" ++ jsNatToString nowMs)
    ∧ (∀ u' : Option User,
        placeBidStep s nowMs u' api = placeBidStep s nowMs u api)
    ∧ (∀ n1 n2 : Nat, n1 ≠ n2 → mkBidderId n1 ≠ mkBidderId n2) := by
  refine ⟨?_, fun u' => rfl, fun n1 n2 hne heq => hne (mkBidderId_inj n1 n2 heq)⟩
  cases api <;>
    exact ⟨mkBidData s.bidForm nowMs s.bidForm.bid_amount,
      by simp [placeBidStep, h], rfl⟩

/-- Witness for C10: at a concrete clock reading the issued call carries
the demo_bidder_ id formed from that reading. -/
theorem bidder_id_fresh_witness :
    ∃ d : BidData,
      (placeBidStep demoOkState 1700000000123 none ApiOutcome.noResponse).2.1
        = [ApiCall.placeBidCall demoOkState.selectedAuction.id d]
      ∧ d.bidder_id = "demo_bidder_" ++ jsNatToString 1700000000123 :=
  (bidder_id_fresh demoOkState 1700000000123 none ApiOutcome.noResponse
    (by norm_num [clientValidate, JSNum.isNaN, JSNum.leZero, JSNum.ltq,
      demoOkState, demoEnglish, demoTop100])).1
